import Mathlib

/-!
Verification of the CPing asynchronous ICMP probe engine.

The definitions below are a shallow embedding of the repository's code:
`checksum16` from `src/util.cpp`, the wire encoding, correlation table,
shutdown drain and the per-probe flow of `ping_once_engine` from
`src/engine_linux.cpp` (the Windows file `src/engine.cpp` mirrors the same
structure).  Byte buffers are `List Nat` with every byte below 256; machine
integers are Nat with explicit `% 2 ^ w` where overflow can matter.  The
host is little-endian (x86 / ARM little-endian, as the code assumes when it
reads a buffer through a `uint16_t` pointer).
-/

namespace CPing

/-- One iteration of the carry-folding loop of `checksum16`
(`src/util.cpp` lines 31-33): `sum = (sum & 0xFFFF) + (sum >> 16)`.
The first argument is fuel; the loop strictly decreases its argument once it
is at least `2 ^ 16`, so fuel `x` always suffices for the value `x`
(see `foldCarry_of_lt` and `foldCarry_step` for the loop characterisation). -/
def foldCarryAux : Nat → Nat → Nat
  | 0, x => x
  | fuel + 1, x => if x < 65536 then x else foldCarryAux fuel (x % 65536 + x / 65536)

/-- The carry-folding `while (sum >> 16)` loop of `checksum16`. -/
def foldCarry (x : Nat) : Nat := foldCarryAux x x

/-- Reads a byte buffer as the sequence of 16-bit values `checksum16` sums:
two bytes at a time through a little-endian `uint16_t` pointer
(`src/util.cpp` lines 17-24), and a trailing odd byte through a `uint8_t`
pointer (lines 26-28), which on a little-endian host is the 16-bit value of
that byte followed by a zero byte. -/
def words16 : List Nat → List Nat
  | [] => []
  | [b] => [b]
  | b0 :: b1 :: rest => (b0 + 256 * b1) :: words16 rest

/-- The 32-bit accumulation `uint32_t sum; sum += *p++` of `checksum16`
(`src/util.cpp` lines 16-23): every addition wraps at `2 ^ 32`. -/
def sum32 (ws : List Nat) : Nat := ws.foldl (fun a w => (a + w) % 4294967296) 0

/-- `checksum16(data, len)` from `src/util.cpp`: 32-bit one's-complement
accumulation of 16-bit words, carry folding, then `(uint16_t)~sum`, which for
a folded value below `2 ^ 16` is `65535 - sum`. -/
def checksum16 (bytes : List Nat) : Nat := 65535 - foldCarry (sum32 (words16 bytes))

/-- The ideal verification sum of the spec's checksum round-trip property:
sum the whole buffer as 16-bit words and fold every end-around carry
(no accumulator width limit). -/
def onesComplementSum (bytes : List Nat) : Nat := foldCarry (words16 bytes).sum

/-- Memory bytes of a `uint16_t` holding `v` on a little-endian host. -/
def toBytes16le (v : Nat) : List Nat := [v % 256, v / 256 % 256]

/-- Memory bytes of a `uint16_t` holding `htons(v)`: network (big-endian)
byte order. -/
def toBytes16be (v : Nat) : List Nat := [v / 256 % 256, v % 256]

/-- Memory bytes of a `uint64_t` holding `v` on a little-endian host
(the `ticks` timestamp `memcpy`-ed into the packet). -/
def toBytes64le (v : Nat) : List Nat :=
  [v % 256, v / 256 % 256, v / 65536 % 256, v / 16777216 % 256,
   v / 4294967296 % 256, v / 1099511627776 % 256,
   v / 281474976710656 % 256, v / 72057594037927936 % 256]

/-- `PingProbeResult` from `include/cping/ping.hpp`: the outcome value every
probe returns.  The default (`PingProbeResult{}`) is
`{success = false, rtt_ms = -1, ttl = -1, if_name = "", error_msg = ""}`. -/
structure PingProbeResult where
  success : Bool
  rtt_ms : Int
  ttl : Int
  if_name : String
  error_msg : String
deriving DecidableEq

/-- The zero-initialised `PingProbeResult{}` of the C++ code. -/
def defaultProbeResult : PingProbeResult :=
  { success := false, rtt_ms := -1, ttl := -1, if_name := "", error_msg := "" }

/-- The correlation key `struct Key { uint16_t id; uint16_t seq; }` of
`src/engine_linux.cpp`. -/
structure Key where
  id : Nat
  seq : Nat
deriving DecidableEq

/-- The engine's process-wide mutable state (`src/engine_linux.cpp` lines
41-65): whether the listener flag `g_running` is set, whether the shared
socket `g_sock` is open, the socket's current `IP_TTL` value, the process id
feeding the identifier, the `g_seq` counter, and `g_waiters`.  The
promise/future rendezvous is split into `waiters` (the map from key to the
identity of its promise's shared state) and `slots` (each shared state's
content: `none` until a value is set).  `nextSlot` allocates fresh shared
states. -/
structure EngineState where
  running : Bool
  sockOpen : Bool
  sockTtl : Int
  pid : Nat
  nextSeq : Nat
  nextSlot : Nat
  waiters : List (Key × Nat)
  slots : List (Nat × Option PingProbeResult)
deriving DecidableEq

/-- `g_seq.fetch_add(1)` on a `uint16_t` counter: wraps at `2 ^ 16`. -/
def bumpSeq (st : EngineState) : EngineState :=
  { st with nextSeq := (st.nextSeq + 1) % 65536 }

/-- `g_waiters.find(k)` — keys in a `std::unordered_map` are unique, so the
first match is the only match. -/
def lookupWaiter (ws : List (Key × Nat)) (k : Key) : Option Nat :=
  match ws with
  | [] => none
  | e :: tl => if e.1 = k then some e.2 else lookupWaiter tl k

/-- `g_waiters.erase(k)` — removes the entry with key `k`; keys are unique in
the map, so removing every occurrence models the single erasure. -/
def eraseWaiter (ws : List (Key × Nat)) (k : Key) : List (Key × Nat) :=
  match ws with
  | [] => []
  | e :: tl => if e.1 = k then eraseWaiter tl k else e :: eraseWaiter tl k

/-- `g_waiters.emplace(k, promise)` (`src/engine_linux.cpp` line 403):
inserts only if the key is absent; on a duplicate key the map is left
unchanged and the insertion silently fails (the code discards the returned
`bool`). -/
def emplaceWaiter (ws : List (Key × Nat)) (k : Key) (s : Nat) : List (Key × Nat) × Bool :=
  match lookupWaiter ws k with
  | some _ => (ws, false)
  | none => (ws ++ [(k, s)], true)

/-- Looks up the content of a promise's shared state. -/
def lookupSlot (sl : List (Nat × Option PingProbeResult)) (s : Nat) :
    Option (Option PingProbeResult) :=
  match sl with
  | [] => none
  | e :: tl => if e.1 = s then some e.2 else lookupSlot tl s

/-- `promise.set_value(v)`: fills the shared state if it is still empty; a
second `set_value` throws `std::future_error`, which every call site wraps in
`try { ... } catch (...) {}`, so it is a no-op. -/
def setSlot (sl : List (Nat × Option PingProbeResult)) (s : Nat) (v : PingProbeResult) :
    List (Nat × Option PingProbeResult) :=
  match sl with
  | [] => []
  | e :: tl =>
    if e.1 = s then
      match e.2 with
      | none => (e.1, some v) :: tl
      | some w => (e.1, some w) :: tl
    else e :: setSlot tl s v

/-- The resolve block of `listener_loop` (`src/engine_linux.cpp` lines
156-165): find the key; if present, move the promise out, erase the entry and
set the value; if absent, do nothing.  The boolean reports whether a waiter
was resolved (the spec's `resolve(key, outcome) -> bool`). -/
def resolveKey (st : EngineState) (k : Key) (v : PingProbeResult) : EngineState × Bool :=
  match lookupWaiter st.waiters k with
  | some s =>
    ({ st with waiters := eraseWaiter st.waiters k, slots := setSlot st.slots s v }, true)
  | none => (st, false)

/-- The drain loop of `shutdown_engine` (`src/engine_linux.cpp` lines
233-239): `set_value(PingProbeResult{})` on every outstanding promise. -/
def drainSlots (ws : List (Key × Nat)) (sl : List (Nat × Option PingProbeResult)) :
    List (Nat × Option PingProbeResult) :=
  ws.foldl (fun acc e => setSlot acc e.2 defaultProbeResult) sl

/-- `shutdown_engine()` (`src/engine_linux.cpp` lines 216-240): clear
`g_running`, close the socket, resolve every pending waiter with the
default-constructed `PingProbeResult{}`, then clear the map. -/
def shutdownEngine (st : EngineState) : EngineState :=
  { st with running := false, sockOpen := false,
            slots := drainSlots st.waiters st.slots, waiters := [] }

/-- `engine_available()`: returns `g_running`. -/
def engineAvailable (st : EngineState) : Bool := st.running

/-- The zeroed-checksum ICMP Echo Request buffer `ping_once_engine` builds
(`src/engine_linux.cpp` lines 407-422): `icmphdr` (type 8, code 0, checksum
0, `htons(id)`, `htons(seq)`), then the 8-byte `uint64_t` steady-clock
timestamp `ticks`, then `payload_size` zero bytes. -/
def icmpEchoZeroed (id seq ticks payload_size : Nat) : List Nat :=
  [8, 0, 0, 0] ++ toBytes16be id ++ toBytes16be seq ++ toBytes64le ticks ++
    List.replicate payload_size 0

/-- The bytes handed to `sendto` (`src/engine_linux.cpp` line 423 writes
`checksum16` of the zeroed buffer into the checksum field, stored in host
little-endian order as the code applies no `htons` to it). -/
def icmpEchoRequestBytes (id seq ticks payload_size : Nat) : List Nat :=
  [8, 0] ++ toBytes16le (checksum16 (icmpEchoZeroed id seq ticks payload_size)) ++
    toBytes16be id ++ toBytes16be seq ++ toBytes64le ticks ++
    List.replicate payload_size 0

/-- Classification of the destination string by `inet_pton` /
`is_local_ipv4_addr_linux` (`src/engine_linux.cpp` lines 255-261):
unparsable, an address of the local machine, or a remote address. -/
inductive DestKind
  | invalid
  | localAddr
  | remote
deriving DecidableEq

/-- Outcome of the local fast path (`src/engine_linux.cpp` lines 273-385):
which of its exits is taken, with the measured rtt and decoded ttl on a
reply. -/
inductive LocalPing
  | socketFailed
  | connectFailed
  | sendFailed
  | timedOut
  | recvFailed
  | replied (rtt : Int) (ttl : Int)
deriving DecidableEq

/-- The environment of one `ping_once_engine` call: everything the outside
world decides.  `reply` is the value, if any, with which this probe's future
was resolved before the deadline — by the listener on a matching Echo Reply
(`success = true`), or by the shutdown drain (`defaultProbeResult`); `none`
means the deadline elapsed unresolved.  `rtt` is the issuer's local clock
measurement `now - t_send` at wake-up, and `ticks` the timestamp written
into the packet. -/
structure ProbeEnv where
  dest : DestKind
  localPing : LocalPing
  sendOk : Bool
  reply : Option PingProbeResult
  rtt : Int
  ticks : Nat
deriving DecidableEq

/-- Result of running `ping_once_engine` once: the returned outcome, the
engine state as mutated by the issuing thread itself (a resolver's concurrent
erase on a delivered reply is modelled separately by `resolveKey`), whether a
send was attempted on the shared engine socket, whether one was attempted on
the local fast path's temporary socket, the bytes passed to `sendto` on the
engine path, the correlation key the engine path allocated, and whether the
call propagated a thrown exception instead of returning.  When `threw = true`
the function returns nothing to its caller: `outcome` then holds only a
placeholder carrying the thrown exception's description (libstdc++
`future_error::what()` wording) and is not a returned value. -/
structure ProbeRun where
  outcome : PingProbeResult
  state : EngineState
  sentEngine : Bool
  sentLocal : Bool
  packet : List Nat
  key : Option Key
  threw : Bool
deriving DecidableEq

/-- `ping_once_engine(ip, timeout_ms, payload_size, ttl)` from
`src/engine_linux.cpp` lines 246-474, branch for branch: invalid address;
local fast path on its own temporary socket (which allocates a sequence
number before sending); `g_sock < 0` guard; then the engine path — allocate
`(id, seq)`, `emplace` the promise (discarding the duplicate-key result),
build the packet, apply a positive `ttl` to the shared socket, send, and
either consume the resolved future (patching `rtt_ms` from local clocks),
or erase the waiter and report `Timeout` / `sendto() failed`.

Duplicate key: `std::unordered_map::emplace` in libstdc++ (and MSVC)
constructs the node FIRST, moving the promise into it, and destroys it when
the key already exists; the abandoned shared state then holds a
`broken_promise` error.  If `sendto` later succeeds, `fut.wait_for` is ready
immediately and `fut.get()` throws `std::future_error` out of
`ping_once_engine` — the `Timeout` branch and its erase never run, so the
original entry survives in the map.  (If `sendto` fails, the send-failure
branch still erases the original entry before `fut.get()` is ever reached.) -/
def pingOnceEngine (st : EngineState) (env : ProbeEnv) (timeout_ms : Int)
    (payload_size : Nat) (ttl : Int) : ProbeRun :=
  match env.dest with
  | DestKind.invalid =>
    ⟨{ defaultProbeResult with error_msg := "Invalid IP" }, st, false, false, [], none, false⟩
  | DestKind.localAddr =>
    match env.localPing with
    | LocalPing.socketFailed =>
      ⟨{ defaultProbeResult with error_msg := "socket() failed" }, st, false, false, [], none,
        false⟩
    | LocalPing.connectFailed =>
      ⟨{ defaultProbeResult with error_msg := "connect() failed" }, st, false, false, [], none,
        false⟩
    | LocalPing.sendFailed =>
      ⟨{ defaultProbeResult with error_msg := "send() failed" }, bumpSeq st, false, true, [],
        none, false⟩
    | LocalPing.timedOut =>
      ⟨{ defaultProbeResult with error_msg := "Timeout" }, bumpSeq st, false, true, [], none,
        false⟩
    | LocalPing.recvFailed =>
      ⟨{ defaultProbeResult with error_msg := "recvmsg() failed" }, bumpSeq st, false, true, [],
        none, false⟩
    | LocalPing.replied r t =>
      ⟨{ success := true, rtt_ms := r, ttl := t, if_name := "", error_msg := "" },
        bumpSeq st, false, true, [], none, false⟩
  | DestKind.remote =>
    if st.sockOpen = false then
      ⟨{ defaultProbeResult with error_msg := "Engine socket not available" }, st, false, false,
        [], none, false⟩
    else
      let id := st.pid % 65536
      let seq := st.nextSeq
      let k : Key := ⟨id, seq⟩
      let st1 := bumpSeq st
      let er := emplaceWaiter st1.waiters k st1.nextSlot
      let st2 : EngineState :=
        { st1 with waiters := er.1,
                   slots := if er.2 then st1.slots ++ [(st1.nextSlot, none)] else st1.slots,
                   nextSlot := st1.nextSlot + 1 }
      let packet := icmpEchoRequestBytes id seq env.ticks payload_size
      let st3 := if 0 < ttl then { st2 with sockTtl := ttl } else st2
      if env.sendOk = false then
        ⟨{ defaultProbeResult with error_msg := "sendto() failed" },
          { st3 with waiters := eraseWaiter st3.waiters k }, true, false, packet, some k,
          false⟩
      else
        if er.2 = false then
          ⟨{ defaultProbeResult with error_msg := "std::future_error: Broken promise" },
            st3, true, false, packet, some k, true⟩
        else
          match env.reply with
          | some r =>
            ⟨{ r with rtt_ms := env.rtt }, st3, true, false, packet, some k, false⟩
          | none =>
            ⟨{ defaultProbeResult with error_msg := "Timeout" },
              { st3 with waiters := eraseWaiter st3.waiters k }, true, false, packet, some k,
              false⟩

/-- One queued `ping_once_engine` invocation, for sequencing probes. -/
structure ProbeCall where
  env : ProbeEnv
  timeout_ms : Int
  payload_size : Nat
  ttl : Int
deriving DecidableEq

/-- Runs a sequence of probes, threading the engine state. -/
def runProbes (st : EngineState) (calls : List ProbeCall) : EngineState :=
  match calls with
  | [] => st
  | c :: tl => runProbes (pingOnceEngine st c.env c.timeout_ms c.payload_size c.ttl).state tl

/-- Fixture: a running engine with no pending probe (pid 7, next sequence 1). -/
def stIdle : EngineState :=
  { running := true, sockOpen := true, sockTtl := 64, pid := 7, nextSeq := 1,
    nextSlot := 0, waiters := [], slots := [] }

/-- Fixture: a running engine with one pending probe registered under key
(7, 1), its promise (shared state 0) still unset; `g_seq` is again at 1, so
the next allocated key collides with the pending one. -/
def stPending : EngineState :=
  { running := true, sockOpen := true, sockTtl := 64, pid := 7, nextSeq := 1,
    nextSlot := 1, waiters := [(⟨7, 1⟩, 0)], slots := [(0, none)] }

/-- Fixture: a stopped engine (initial state, or state after `stop()`). -/
def stStopped : EngineState :=
  { running := false, sockOpen := false, sockTtl := 64, pid := 7, nextSeq := 1,
    nextSlot := 0, waiters := [], slots := [] }

/-- Fixture environment: remote destination, send succeeds, no reply before
the deadline. -/
def envRemoteTimeout : ProbeEnv :=
  { dest := DestKind.remote, localPing := LocalPing.timedOut, sendOk := true,
    reply := none, rtt := 0, ticks := 0 }

/-- Fixture environment: remote destination, send succeeds, and the probe's
future is resolved with the shutdown drain's `PingProbeResult{}`. -/
def envRemoteDrained : ProbeEnv :=
  { dest := DestKind.remote, localPing := LocalPing.timedOut, sendOk := true,
    reply := some defaultProbeResult, rtt := 5, ticks := 0 }

/-- Fixture environment: remote destination, send succeeds, and the listener
resolves the probe with a successful Echo Reply outcome. -/
def envRemoteReply : ProbeEnv :=
  { dest := DestKind.remote, localPing := LocalPing.timedOut, sendOk := true,
    reply := some { success := true, rtt_ms := 0, ttl := 64, if_name := "", error_msg := "" },
    rtt := 3, ticks := 0 }

/-- Fixture environment: destination is a local address and the local
fast path succeeds. -/
def envLocalReply : ProbeEnv :=
  { dest := DestKind.localAddr, localPing := LocalPing.replied 0 64, sendOk := true,
    reply := none, rtt := 0, ticks := 0 }

section FoldCarryLemmas

theorem foldCarryAux_zero_val : ∀ fuel, foldCarryAux fuel 0 = 0
  | 0 => rfl
  | _ + 1 => by simp [foldCarryAux]

theorem foldCarryAux_of_lt {x : Nat} (h : x < 65536) : ∀ fuel, foldCarryAux fuel x = x
  | 0 => rfl
  | _ + 1 => by simp [foldCarryAux, h]

theorem carryStep_lt {x : Nat} (h : 65536 ≤ x) : x % 65536 + x / 65536 < x := by
  omega

theorem foldCarryAux_add (extra : Nat) :
    ∀ fuel x, x ≤ fuel → foldCarryAux (fuel + extra) x = foldCarryAux fuel x := by
  intro fuel
  induction fuel with
  | zero =>
    intro x hx
    have hx0 : x = 0 := Nat.le_zero.mp hx
    subst hx0
    rw [foldCarryAux_zero_val, foldCarryAux_zero_val]
  | succ n ih =>
    intro x hx
    have hrw : n + 1 + extra = (n + extra) + 1 := by omega
    rw [hrw]
    by_cases h : x < 65536
    · rw [foldCarryAux_of_lt h, foldCarryAux_of_lt h]
    · have hge : 65536 ≤ x := Nat.le_of_not_lt h
      have hlt := carryStep_lt hge
      have harg : x % 65536 + x / 65536 ≤ n := by omega
      show foldCarryAux ((n + extra) + 1) x = foldCarryAux (n + 1) x
      simp only [foldCarryAux, if_neg h]
      exact ih _ harg

theorem foldCarryAux_eq_foldCarry {fuel x : Nat} (h : x ≤ fuel) :
    foldCarryAux fuel x = foldCarry x := by
  obtain ⟨e, he⟩ := Nat.exists_eq_add_of_le h
  subst he
  exact foldCarryAux_add e x x (Nat.le_refl x)

theorem foldCarry_of_lt {x : Nat} (h : x < 65536) : foldCarry x = x :=
  foldCarryAux_of_lt h x

theorem foldCarry_step {x : Nat} (h : 65536 ≤ x) :
    foldCarry x = foldCarry (x % 65536 + x / 65536) := by
  obtain ⟨m, hm⟩ : ∃ m, x = m + 1 := ⟨x - 1, by omega⟩
  subst hm
  show foldCarryAux (m + 1) (m + 1) = _
  simp only [foldCarryAux, if_neg (Nat.not_lt.mpr h)]
  apply foldCarryAux_eq_foldCarry
  have := carryStep_lt h
  omega

theorem foldCarry_lt (x : Nat) : foldCarry x < 65536 := by
  induction x using Nat.strong_induction_on with
  | _ x ih =>
    by_cases h : x < 65536
    · rw [foldCarry_of_lt h]; exact h
    · have hge : 65536 ≤ x := Nat.le_of_not_lt h
      rw [foldCarry_step hge]
      exact ih _ (carryStep_lt hge)

theorem foldCarry_le (x : Nat) : foldCarry x ≤ x := by
  induction x using Nat.strong_induction_on with
  | _ x ih =>
    by_cases h : x < 65536
    · rw [foldCarry_of_lt h]
    · have hge : 65536 ≤ x := Nat.le_of_not_lt h
      rw [foldCarry_step hge]
      have hlt := carryStep_lt hge
      exact Nat.le_trans (ih _ hlt) (Nat.le_of_lt hlt)

theorem foldCarry_mod (x : Nat) : foldCarry x % 65535 = x % 65535 := by
  induction x using Nat.strong_induction_on with
  | _ x ih =>
    by_cases h : x < 65536
    · rw [foldCarry_of_lt h]
    · have hge : 65536 ≤ x := Nat.le_of_not_lt h
      rw [foldCarry_step hge]
      have := ih _ (carryStep_lt hge)
      omega

theorem foldCarry_pos {x : Nat} (hx : 0 < x) : 0 < foldCarry x := by
  induction x using Nat.strong_induction_on with
  | _ x ih =>
    by_cases h : x < 65536
    · rw [foldCarry_of_lt h]; exact hx
    · have hge : 65536 ≤ x := Nat.le_of_not_lt h
      rw [foldCarry_step hge]
      exact ih _ (carryStep_lt hge) (by omega)

theorem foldCarry_of_multiple {x : Nat} (hx : 0 < x) (hdvd : x % 65535 = 0) :
    foldCarry x = 65535 := by
  have h1 := foldCarry_mod x
  have h2 := foldCarry_lt x
  have h3 := foldCarry_pos hx
  omega

end FoldCarryLemmas

section Words16Lemmas

theorem words16_cons2 (a b : Nat) (l : List Nat) :
    words16 (a :: b :: l) = (a + 256 * b) :: words16 l := rfl

theorem checksum16_eq (bytes : List Nat) :
    checksum16 bytes = 65535 - foldCarry (sum32 (words16 bytes)) := rfl

theorem onesComplementSum_eq (bytes : List Nat) :
    onesComplementSum bytes = foldCarry (words16 bytes).sum := rfl

theorem words16_append_even : ∀ (pre rest : List Nat), pre.length % 2 = 0 →
    words16 (pre ++ rest) = words16 pre ++ words16 rest
  | [], _, _ => by simp [words16]
  | [_], _, h => by simp at h
  | b0 :: b1 :: tl, rest, h => by
    have htl : tl.length % 2 = 0 := by
      simp only [List.length_cons] at h
      omega
    have ih := words16_append_even tl rest htl
    simp [words16, ih]

theorem words16_append_zero_odd : ∀ (l : List Nat), l.length % 2 = 1 →
    words16 (l ++ [0]) = words16 l
  | [], h => by simp at h
  | [_], _ => by simp [words16]
  | b0 :: b1 :: tl, h => by
    have htl : tl.length % 2 = 1 := by
      simp only [List.length_cons] at h
      omega
    have ih := words16_append_zero_odd tl htl
    simp [words16, ih]

theorem words16_replicate255 : ∀ n, words16 (List.replicate (2 * n) 255) = List.replicate n 65535
  | 0 => by simp [words16]
  | n + 1 => by
    have h2 : 2 * (n + 1) = (2 * n) + 1 + 1 := by omega
    rw [h2, List.replicate_succ, List.replicate_succ, List.replicate_succ]
    simp [words16, words16_replicate255 n]

theorem words16_sum_le : ∀ (bytes : List Nat), (∀ b ∈ bytes, b < 256) →
    (words16 bytes).sum ≤ ((bytes.length + 1) / 2) * 65535
  | [], _ => by simp [words16]
  | [b], h => by
    have hb := h b (by simp)
    simp [words16]
    omega
  | b0 :: b1 :: tl, h => by
    have ih := words16_sum_le tl (fun b hb => h b (by simp [hb]))
    have hb0 := h b0 (by simp)
    have hb1 := h b1 (by simp)
    simp only [words16, List.sum_cons, List.length_cons]
    omega

/-- The head word of a buffer whose first two bytes hold a `uint16_t` value
`v` written in host (little-endian) order. -/
theorem words16_toBytes16le (v : Nat) (rest : List Nat) (hv : v < 65536) :
    words16 (toBytes16le v ++ rest) = v :: words16 rest := by
  simp only [toBytes16le, List.cons_append, List.nil_append, words16]
  congr 1
  omega

theorem sum_replicate_nat : ∀ (n x : Nat), (List.replicate n x).sum = n * x
  | 0, _ => by simp
  | n + 1, x => by
    rw [List.replicate_succ, List.sum_cons, sum_replicate_nat n x]
    ring

theorem sum32_go (ws : List Nat) :
    ∀ a, a < 4294967296 →
      ws.foldl (fun a w => (a + w) % 4294967296) a = (a + ws.sum) % 4294967296 := by
  induction ws with
  | nil =>
    intro a ha
    simp [Nat.mod_eq_of_lt ha]
  | cons w tl ih =>
    intro a ha
    have hlt : (a + w) % 4294967296 < 4294967296 := Nat.mod_lt _ (by omega)
    simp only [List.foldl_cons, List.sum_cons]
    rw [ih _ hlt, Nat.mod_add_mod]
    congr 1
    omega

theorem sum32_eq_sum_mod (ws : List Nat) : sum32 ws = ws.sum % 4294967296 := by
  simpa using sum32_go ws 0 (by omega)

theorem sum32_eq_sum_of_lt {ws : List Nat} (h : ws.sum < 4294967296) : sum32 ws = ws.sum := by
  rw [sum32_eq_sum_mod, Nat.mod_eq_of_lt h]

/-- Core checksum round-trip fact.  For a buffer `pre ++ [0, 0] ++ post`
whose zeroed checksum field sits at the word-aligned offset `pre.length`,
writing `checksum16` of the zeroed buffer into the field makes the full
one's-complement folded sum of the buffer equal `0xFFFF` — provided the
buffer is short enough (at most 131074 bytes) that the 32-bit accumulator of
`checksum16` cannot wrap. -/
theorem checksum_roundtrip_core (pre post : List Nat)
    (hpre : pre.length % 2 = 0)
    (hb : ∀ b ∈ pre ++ 0 :: 0 :: post, b < 256)
    (hlen : pre.length + 2 + post.length ≤ 131074) :
    foldCarry (words16 (pre ++ toBytes16le (checksum16 (pre ++ 0 :: 0 :: post)) ++ post)).sum
      = 65535 := by
  -- decompose the zeroed buffer
  have hz : words16 (pre ++ 0 :: 0 :: post) = words16 pre ++ 0 :: words16 post := by
    rw [words16_append_even pre _ hpre]
    simp [words16]
  -- the zeroed sum fits the 32-bit accumulator
  have hlen2 : (pre ++ 0 :: 0 :: post).length = pre.length + 2 + post.length := by
    simp
    omega
  have hsumle : (words16 (pre ++ 0 :: 0 :: post)).sum ≤ 65537 * 65535 := by
    have h1 := words16_sum_le (pre ++ 0 :: 0 :: post) hb
    rw [hlen2] at h1
    have h2 : (pre.length + 2 + post.length + 1) / 2 ≤ 65537 := by omega
    calc (words16 (pre ++ 0 :: 0 :: post)).sum
        ≤ ((pre.length + 2 + post.length + 1) / 2) * 65535 := h1
      _ ≤ 65537 * 65535 := Nat.mul_le_mul_right _ h2
  set S0 := (words16 (pre ++ 0 :: 0 :: post)).sum with hS0
  have hS0lt : S0 < 4294967296 := by omega
  -- the checksum the code computes
  have hck : checksum16 (pre ++ 0 :: 0 :: post) = 65535 - foldCarry S0 := by
    rw [checksum16, sum32_eq_sum_of_lt hS0lt]
  set f := foldCarry S0 with hf
  have hflt : f < 65536 := foldCarry_lt S0
  have hfle : f ≤ S0 := foldCarry_le S0
  have hfmod : f % 65535 = S0 % 65535 := foldCarry_mod S0
  set c := 65535 - f with hc
  have hclt : c < 65536 := by omega
  -- decompose the buffer carrying the checksum
  have hw : words16 (pre ++ toBytes16le c ++ post) = words16 pre ++ c :: words16 post := by
    rw [List.append_assoc, words16_append_even pre _ hpre, words16_toBytes16le _ _ hclt]
  have hsum1 : (words16 (pre ++ toBytes16le c ++ post)).sum = S0 + c := by
    rw [hw, hS0, hz]
    simp only [List.sum_append, List.sum_cons]
    omega
  rw [hck, hsum1]
  -- S0 + c is a positive multiple of 65535
  have hdvd : (S0 + c) % 65535 = 0 := by omega
  have hpos : 0 < S0 + c := by omega
  exact foldCarry_of_multiple hpos hdvd

end Words16Lemmas

section TableLemmas

theorem lookup_eraseWaiter_self : ∀ (ws : List (Key × Nat)) (k : Key),
    lookupWaiter (eraseWaiter ws k) k = none
  | [], _ => rfl
  | e :: tl, k => by
    by_cases h : e.1 = k
    · simp [eraseWaiter, h, lookup_eraseWaiter_self tl k]
    · simp [eraseWaiter, lookupWaiter, h, lookup_eraseWaiter_self tl k]

theorem lookup_setSlot_self : ∀ (sl : List (Nat × Option PingProbeResult)) (s : Nat)
    (v : PingProbeResult), lookupSlot sl s = some none →
    lookupSlot (setSlot sl s v) s = some (some v)
  | [], _, _, h => by simp [lookupSlot] at h
  | e :: tl, s, v, h => by
    by_cases he : e.1 = s
    · have h2 : e.2 = none := by
        simp [lookupSlot, he] at h
        exact h
      simp [setSlot, he, h2, lookupSlot]
    · simp only [lookupSlot, if_neg he] at h
      simp [setSlot, he, lookupSlot, lookup_setSlot_self tl s v h]

theorem lookup_setSlot_other : ∀ (sl : List (Nat × Option PingProbeResult)) (s t : Nat)
    (v : PingProbeResult), t ≠ s → lookupSlot (setSlot sl s v) t = lookupSlot sl t
  | [], _, _, _, _ => rfl
  | e :: tl, s, t, v, hts => by
    by_cases he : e.1 = s
    · have het : ¬e.1 = t := by rw [he]; exact fun h => hts h.symm
      cases h2 : e.2 <;> simp [setSlot, he, h2, lookupSlot, het, Ne.symm hts]
    · simp [setSlot, he, lookupSlot, lookup_setSlot_other tl s t v hts]

theorem drainSlots_cons (e : Key × Nat) (ws : List (Key × Nat))
    (sl : List (Nat × Option PingProbeResult)) :
    drainSlots (e :: ws) sl = drainSlots ws (setSlot sl e.2 defaultProbeResult) := rfl

theorem lookup_drainSlots_notMem : ∀ (ws : List (Key × Nat))
    (sl : List (Nat × Option PingProbeResult)) (s : Nat), s ∉ ws.map Prod.snd →
    lookupSlot (drainSlots ws sl) s = lookupSlot sl s
  | [], _, _, _ => rfl
  | e :: tl, sl, s, h => by
    have hne : s ≠ e.2 := by
      intro hc
      exact h (by simp [hc])
    have htl : s ∉ tl.map Prod.snd := fun hc => h (by simp [hc])
    rw [drainSlots_cons, lookup_drainSlots_notMem tl _ s htl,
        lookup_setSlot_other sl e.2 s defaultProbeResult hne]

theorem lookup_drainSlots_mem : ∀ (ws : List (Key × Nat))
    (sl : List (Nat × Option PingProbeResult)),
    (ws.map Prod.snd).Nodup → (∀ e ∈ ws, lookupSlot sl e.2 = some none) →
    ∀ e ∈ ws, lookupSlot (drainSlots ws sl) e.2 = some (some defaultProbeResult)
  | [], _, _, _, _, h => by simp at h
  | hd :: tl, sl, hnd, hun, e, hmem => by
    simp only [List.map_cons, List.nodup_cons] at hnd
    obtain ⟨hhd, hndtl⟩ := hnd
    rw [drainSlots_cons]
    rcases List.mem_cons.mp hmem with heq | htl
    · subst heq
      have hpres : lookupSlot (drainSlots tl (setSlot sl e.2 defaultProbeResult)) e.2
          = lookupSlot (setSlot sl e.2 defaultProbeResult) e.2 :=
        lookup_drainSlots_notMem tl _ e.2 hhd
      rw [hpres, lookup_setSlot_self sl e.2 defaultProbeResult (hun e (by simp))]
    · have huntl : ∀ x ∈ tl, lookupSlot (setSlot sl hd.2 defaultProbeResult) x.2 = some none := by
        intro x hx
        have hxne : x.2 ≠ hd.2 := by
          intro hc
          exact hhd (by rw [← hc]; exact List.mem_map_of_mem Prod.snd hx)
        rw [lookup_setSlot_other sl hd.2 x.2 defaultProbeResult hxne]
        exact hun x (List.mem_cons_of_mem hd hx)
      exact lookup_drainSlots_mem tl _ hndtl huntl e htl

end TableLemmas


section ClaimHelpers

/-- Characterisation of the engine path of `ping_once_engine`: with a remote
destination and the shared socket open, the call reduces to the
register/send/wait body. -/
theorem pingOnce_remote_eq (st : EngineState) (env : ProbeEnv) (tmo : Int) (ps : Nat)
    (ttl : Int) (hdest : env.dest = DestKind.remote) (hsock : st.sockOpen = true) :
    pingOnceEngine st env tmo ps ttl =
      (let k : Key := ⟨st.pid % 65536, st.nextSeq⟩
       let st1 := bumpSeq st
       let er := emplaceWaiter st1.waiters k st1.nextSlot
       let st2 : EngineState :=
         { st1 with waiters := er.1,
                    slots := if er.2 then st1.slots ++ [(st1.nextSlot, none)] else st1.slots,
                    nextSlot := st1.nextSlot + 1 }
       let packet := icmpEchoRequestBytes (st.pid % 65536) st.nextSeq env.ticks ps
       let st3 := if 0 < ttl then { st2 with sockTtl := ttl } else st2
       if env.sendOk = false then
         ⟨{ defaultProbeResult with error_msg := "sendto() failed" },
           { st3 with waiters := eraseWaiter st3.waiters k }, true, false, packet, some k,
           false⟩
       else
         if er.2 = false then
           ⟨{ defaultProbeResult with error_msg := "std::future_error: Broken promise" },
             st3, true, false, packet, some k, true⟩
         else
           match env.reply with
           | some r => ⟨{ r with rtt_ms := env.rtt }, st3, true, false, packet, some k, false⟩
           | none =>
             ⟨{ defaultProbeResult with error_msg := "Timeout" },
               { st3 with waiters := eraseWaiter st3.waiters k }, true, false, packet,
               some k, false⟩) := by
  obtain ⟨dest, lp, sOk, rep, rt, tk⟩ := env
  subst hdest
  obtain ⟨run, so, sttl, pid0, seq0, slot0, ws0, sl0⟩ := st
  have hso : so = true := hsock
  subst hso
  rfl

/-- A probe issued with nonpositive ttl never touches the shared socket's
`IP_TTL` value (the local fast path sets ttl only on its temporary socket). -/
theorem pingOnce_sockTtl_of_nonpos (st : EngineState) (env : ProbeEnv) (tmo : Int)
    (ps : Nat) (ttl : Int) (h : ttl ≤ 0) :
    (pingOnceEngine st env tmo ps ttl).state.sockTtl = st.sockTtl := by
  have hnot : ¬(0 < ttl) := by omega
  obtain ⟨dest, lp, sOk, rep, rt, tk⟩ := env
  cases dest with
  | invalid => rfl
  | localAddr => cases lp <;> rfl
  | remote =>
    by_cases hs : st.sockOpen = false
    · simp [pingOnceEngine, hs]
    · cases sOk with
      | false => simp [pingOnceEngine, hs, hnot, bumpSeq]
      | true =>
        cases rep <;>
          simp [pingOnceEngine, hs, hnot, bumpSeq, apply_ite ProbeRun.state,
            apply_ite EngineState.sockTtl]

/-- A sequence of probes all issued with nonpositive ttl leaves the shared
socket's `IP_TTL` value unchanged. -/
theorem runProbes_sockTtl (calls : List ProbeCall) :
    ∀ st, (∀ c ∈ calls, c.ttl ≤ 0) → (runProbes st calls).sockTtl = st.sockTtl := by
  induction calls with
  | nil => intro st _; rfl
  | cons c tl ih =>
    intro st h
    show (runProbes (pingOnceEngine st c.env c.timeout_ms c.payload_size c.ttl).state
      tl).sockTtl = st.sockTtl
    rw [ih _ (fun x hx => h x (List.mem_cons_of_mem c hx))]
    exact pingOnce_sockTtl_of_nonpos st c.env c.timeout_ms c.payload_size c.ttl (h c (by simp))

/-- Every byte of the zeroed echo-request buffer is below 256. -/
theorem icmpEchoZeroed_bytes_lt (id seq ticks ps : Nat) :
    ∀ b ∈ icmpEchoZeroed id seq ticks ps, b < 256 := by
  intro b hb
  simp only [icmpEchoZeroed, toBytes16be, toBytes64le, List.mem_append, List.mem_cons,
    List.not_mem_nil, or_false, List.mem_replicate] at hb
  omega


end ClaimHelpers

section Claims

/-- Claim C4: at-most-once resolution.  If a key is present (with its
promise still unset), the first `resolve` returns true, removes the entry and
assigns the outcome to its waiter; a second `resolve` of the same key returns
false and leaves the whole state unchanged. -/
theorem resolve_at_most_once (st : EngineState) (k : Key) (s : Nat)
    (v w : PingProbeResult)
    (hk : lookupWaiter st.waiters k = some s)
    (hs : lookupSlot st.slots s = some none) :
    (resolveKey st k v).2 = true ∧
    lookupWaiter (resolveKey st k v).1.waiters k = none ∧
    lookupSlot (resolveKey st k v).1.slots s = some (some v) ∧
    resolveKey (resolveKey st k v).1 k w = ((resolveKey st k v).1, false) := by
  have h1 : resolveKey st k v =
      ({ st with waiters := eraseWaiter st.waiters k, slots := setSlot st.slots s v }, true) := by
    simp [resolveKey, hk]
  rw [h1]
  refine ⟨rfl, lookup_eraseWaiter_self st.waiters k, lookup_setSlot_self st.slots s v hs, ?_⟩
  simp [resolveKey, lookup_eraseWaiter_self st.waiters k]

/-- Witness for C4 at a concrete state with key (7, 1) pending. -/
theorem resolve_at_most_once_witness :
    lookupWaiter stPending.waiters ⟨7, 1⟩ = some 0 ∧
    lookupSlot stPending.slots 0 = some none ∧
    ((resolveKey stPending ⟨7, 1⟩ defaultProbeResult).2 = true ∧
      lookupWaiter (resolveKey stPending ⟨7, 1⟩ defaultProbeResult).1.waiters ⟨7, 1⟩ = none ∧
      lookupSlot (resolveKey stPending ⟨7, 1⟩ defaultProbeResult).1.slots 0
        = some (some defaultProbeResult) ∧
      resolveKey (resolveKey stPending ⟨7, 1⟩ defaultProbeResult).1 ⟨7, 1⟩ defaultProbeResult
        = ((resolveKey stPending ⟨7, 1⟩ defaultProbeResult).1, false)) :=
  ⟨by decide, by decide,
    resolve_at_most_once stPending ⟨7, 1⟩ 0 defaultProbeResult defaultProbeResult
      (by decide) (by decide)⟩

/-- Claim C6: the trailing odd byte is summed as the 16-bit word formed by
that byte followed by a zero pad byte, so the checksum of an odd-length
buffer equals the checksum of the buffer extended by one zero byte. -/
theorem checksum16_odd_zero_pad (bytes : List Nat) (h : bytes.length % 2 = 1) :
    checksum16 bytes = checksum16 (bytes ++ [0]) := by
  unfold checksum16
  rw [words16_append_zero_odd bytes h]

/-- Witness for C6 on the odd-length buffer [1, 2, 3]. -/
theorem checksum16_odd_zero_pad_witness :
    ([1, 2, 3] : List Nat).length % 2 = 1 ∧
    checksum16 [1, 2, 3] = checksum16 ([1, 2, 3] ++ [0]) :=
  ⟨by decide, checksum16_odd_zero_pad [1, 2, 3] (by decide)⟩

/-- Claim C8: a probe on the engine path whose deadline elapses without a
reply returns the `Timeout` outcome and leaves no correlation-table entry for
its key (the timeout branch erases it).  The allocated key is assumed fresh,
as the spec's ProbeIssuer requires (a colliding key never reaches the
`Timeout` branch at all: its broken future throws first). -/
theorem timeout_leaves_no_entry (st : EngineState) (env : ProbeEnv) (tmo : Int)
    (ps : Nat) (ttl : Int)
    (hdest : env.dest = DestKind.remote) (hsock : st.sockOpen = true)
    (hfresh : lookupWaiter st.waiters ⟨st.pid % 65536, st.nextSeq⟩ = none)
    (hsend : env.sendOk = true) (hreply : env.reply = none) :
    (pingOnceEngine st env tmo ps ttl).outcome.error_msg = "Timeout" ∧
    (pingOnceEngine st env tmo ps ttl).key = some ⟨st.pid % 65536, st.nextSeq⟩ ∧
    lookupWaiter (pingOnceEngine st env tmo ps ttl).state.waiters
      ⟨st.pid % 65536, st.nextSeq⟩ = none := by
  rw [pingOnce_remote_eq st env tmo ps ttl hdest hsock]
  have hemp : emplaceWaiter (bumpSeq st).waiters ⟨st.pid % 65536, st.nextSeq⟩
      (bumpSeq st).nextSlot
      = ((bumpSeq st).waiters ++ [(⟨st.pid % 65536, st.nextSeq⟩, (bumpSeq st).nextSlot)],
          true) := by
    simp [emplaceWaiter, bumpSeq, hfresh]
  simp only [hsend, hreply, hemp]
  refine ⟨by simp, by simp, ?_⟩
  simp only [apply_ite EngineState.waiters]
  simp [lookup_eraseWaiter_self]

/-- Witness for C8 at the idle running engine (fresh key, no collision). -/
theorem timeout_leaves_no_entry_witness :
    envRemoteTimeout.dest = DestKind.remote ∧ stIdle.sockOpen = true ∧
    lookupWaiter stIdle.waiters ⟨stIdle.pid % 65536, stIdle.nextSeq⟩ = none ∧
    ((pingOnceEngine stIdle envRemoteTimeout 1000 0 (-1)).outcome.error_msg = "Timeout" ∧
      (pingOnceEngine stIdle envRemoteTimeout 1000 0 (-1)).key
        = some ⟨stIdle.pid % 65536, stIdle.nextSeq⟩ ∧
      lookupWaiter (pingOnceEngine stIdle envRemoteTimeout 1000 0 (-1)).state.waiters
        ⟨stIdle.pid % 65536, stIdle.nextSeq⟩ = none) :=
  ⟨by decide, by decide, by decide,
    timeout_leaves_no_entry stIdle envRemoteTimeout 1000 0 (-1)
      (by decide) (by decide) (by decide) (by decide) (by decide)⟩

/-- Claim C9 counterexample: with the engine stopped, a probe to a LOCAL
destination does not report the engine unavailable — the local fast path runs
on its own temporary socket, attempts a send, and can even succeed. -/
theorem probe_engine_down_local_cex :
    engineAvailable stStopped = false ∧
    (pingOnceEngine stStopped envLocalReply 1000 0 (-1)).outcome.success = true ∧
    (pingOnceEngine stStopped envLocalReply 1000 0 (-1)).sentLocal = true := by
  decide

/-- Claim C9 (amended): for a valid REMOTE (non-local) destination, a probe
issued while the engine is stopped returns success = false with the error
"Engine socket not available", attempts no send on either socket, and leaves
the state untouched. -/
theorem probe_unavailable_remote (st : EngineState) (env : ProbeEnv) (tmo : Int)
    (ps : Nat) (ttl : Int)
    (hrun : engineAvailable st = false) (hsock : st.sockOpen = false)
    (hdest : env.dest = DestKind.remote) :
    (pingOnceEngine st env tmo ps ttl).outcome.success = false ∧
    (pingOnceEngine st env tmo ps ttl).outcome.error_msg = "Engine socket not available" ∧
    (pingOnceEngine st env tmo ps ttl).sentEngine = false ∧
    (pingOnceEngine st env tmo ps ttl).sentLocal = false ∧
    (pingOnceEngine st env tmo ps ttl).state = st := by
  obtain ⟨dest, lp, sOk, rep, rt, tk⟩ := env
  subst hdest
  simp [pingOnceEngine, hsock, defaultProbeResult]

/-- Witness for the amended C9 at the stopped engine. -/
theorem probe_unavailable_remote_witness :
    engineAvailable stStopped = false ∧ stStopped.sockOpen = false ∧
    ((pingOnceEngine stStopped envRemoteTimeout 1000 0 (-1)).outcome.success = false ∧
      (pingOnceEngine stStopped envRemoteTimeout 1000 0 (-1)).outcome.error_msg
        = "Engine socket not available" ∧
      (pingOnceEngine stStopped envRemoteTimeout 1000 0 (-1)).sentEngine = false ∧
      (pingOnceEngine stStopped envRemoteTimeout 1000 0 (-1)).sentLocal = false ∧
      (pingOnceEngine stStopped envRemoteTimeout 1000 0 (-1)).state = stStopped) :=
  ⟨by decide, by decide,
    probe_unavailable_remote stStopped envRemoteTimeout 1000 0 (-1)
      (by decide) (by decide) (by decide)⟩

/-- Claim C10: a probe with positive ttl sets `IP_TTL` on the single shared
engine socket and nothing restores it: the override survives the probe and
persists across every subsequent probe that passes no positive ttl of its
own. -/
theorem ttl_override_persists (st : EngineState) (env : ProbeEnv) (tmo : Int)
    (ps : Nat) (ttl : Int) (calls : List ProbeCall)
    (hdest : env.dest = DestKind.remote) (hsock : st.sockOpen = true) (httl : 0 < ttl)
    (hcalls : ∀ c ∈ calls, c.ttl ≤ 0) :
    (pingOnceEngine st env tmo ps ttl).state.sockTtl = ttl ∧
    (runProbes (pingOnceEngine st env tmo ps ttl).state calls).sockTtl = ttl := by
  have h1 : (pingOnceEngine st env tmo ps ttl).state.sockTtl = ttl := by
    obtain ⟨dest, lp, sOk, rep, rt, tk⟩ := env
    subst hdest
    have hs : ¬(st.sockOpen = false) := by simp [hsock]
    cases sOk with
    | false => simp [pingOnceEngine, hs, httl]
    | true =>
      cases rep <;>
        simp [pingOnceEngine, hs, httl, apply_ite ProbeRun.state,
          apply_ite EngineState.sockTtl]
  exact ⟨h1, by rw [runProbes_sockTtl calls _ hcalls, h1]⟩

/-- Witness for C10: ttl 5 set by one probe, still in force after a
subsequent probe with ttl -1. -/
theorem ttl_override_persists_witness :
    envRemoteTimeout.dest = DestKind.remote ∧ (0 : Int) < 5 ∧
    (∀ c ∈ [ProbeCall.mk envRemoteTimeout 1000 0 (-1)], c.ttl ≤ 0) ∧
    ((pingOnceEngine stIdle envRemoteTimeout 1000 0 5).state.sockTtl = 5 ∧
      (runProbes (pingOnceEngine stIdle envRemoteTimeout 1000 0 5).state
        [ProbeCall.mk envRemoteTimeout 1000 0 (-1)]).sockTtl = 5) :=
  ⟨by decide, by decide, by decide,
    ttl_override_persists stIdle envRemoteTimeout 1000 0 5
      [ProbeCall.mk envRemoteTimeout 1000 0 (-1)]
      (by decide) (by decide) (by decide) (by decide)⟩

/-- Claim C1 counterexample: the shutdown drain resolves a pending waiter
with the default-constructed `PingProbeResult{}`, whose error string is
EMPTY — not "Engine shut down" (that string appears nowhere in the code). -/
theorem shutdown_drain_error_string_cex :
    lookupSlot (shutdownEngine stPending).slots 0 = some (some defaultProbeResult) ∧
    defaultProbeResult.success = false ∧
    defaultProbeResult.error_msg = "" ∧
    ¬defaultProbeResult.error_msg = "Engine shut down" := by
  decide

/-- Claim C1 (amended): `stop()` drains completely — after `shutdown_engine`
the waiter map is empty and every previously pending waiter's promise is
resolved with the default `PingProbeResult{}`: success = false, rtt -1,
ttl -1, and an EMPTY error string (not "Engine shut down").  Hypotheses: the
pending promises are distinct and still unset, as registration guarantees. -/
theorem shutdown_drains_all_pending (st : EngineState)
    (hnd : (st.waiters.map Prod.snd).Nodup)
    (hun : ∀ e ∈ st.waiters, lookupSlot st.slots e.2 = some none) :
    (shutdownEngine st).running = false ∧
    (shutdownEngine st).waiters = [] ∧
    (∀ e ∈ st.waiters,
      lookupSlot (shutdownEngine st).slots e.2 = some (some defaultProbeResult)) ∧
    defaultProbeResult.success = false ∧
    defaultProbeResult.error_msg = "" := by
  refine ⟨rfl, rfl, ?_, rfl, rfl⟩
  intro e he
  exact lookup_drainSlots_mem st.waiters st.slots hnd hun e he

/-- Witness for the amended C1 at the one-pending-probe state. -/
theorem shutdown_drains_all_pending_witness :
    (stPending.waiters.map Prod.snd).Nodup ∧
    (∀ e ∈ stPending.waiters, lookupSlot stPending.slots e.2 = some none) ∧
    ((shutdownEngine stPending).running = false ∧
      (shutdownEngine stPending).waiters = [] ∧
      (∀ e ∈ stPending.waiters,
        lookupSlot (shutdownEngine stPending).slots e.2 = some (some defaultProbeResult)) ∧
      defaultProbeResult.success = false ∧
      defaultProbeResult.error_msg = "") :=
  ⟨by decide, by decide, shutdown_drains_all_pending stPending (by decide) (by decide)⟩

/-- Claim C2 counterexample: a probe that fails because the shutdown drain
resolved its future returns success = false with an EMPTY error string — not
a human-readable one. -/
theorem drained_probe_empty_error_cex :
    (pingOnceEngine stIdle envRemoteDrained 1000 0 (-1)).outcome.success = false ∧
    (pingOnceEngine stIdle envRemoteDrained 1000 0 (-1)).outcome.error_msg = "" := by
  decide

/-- Claim C2 (amended): `ping_once_engine` is a total function into
`PingProbeResult` values, and every failing branch carries a nonempty,
human-readable error string EXCEPT a probe whose future was resolved with a
failure value — which only the shutdown drain produces, with the default
outcome whose error string is empty.  (A duplicate-key probe does not return
at all — it throws; its placeholder outcome carries the nonempty exception
text, covered by the first disjunct.) -/
theorem failed_probe_is_value (st : EngineState) (env : ProbeEnv) (tmo : Int)
    (ps : Nat) (ttl : Int)
    (hfail : (pingOnceEngine st env tmo ps ttl).outcome.success = false) :
    ¬(pingOnceEngine st env tmo ps ttl).outcome.error_msg = "" ∨
    (∃ r, env.reply = some r ∧ r.success = false ∧
      (pingOnceEngine st env tmo ps ttl).outcome = { r with rtt_ms := env.rtt }) := by
  obtain ⟨dest, lp, sOk, rep, rt, tk⟩ := env
  cases dest with
  | invalid => exact Or.inl (show ¬("Invalid IP" = "") from by decide)
  | localAddr =>
    cases lp with
    | socketFailed => exact Or.inl (show ¬("socket() failed" = "") from by decide)
    | connectFailed => exact Or.inl (show ¬("connect() failed" = "") from by decide)
    | sendFailed => exact Or.inl (show ¬("send() failed" = "") from by decide)
    | timedOut => exact Or.inl (show ¬("Timeout" = "") from by decide)
    | recvFailed => exact Or.inl (show ¬("recvmsg() failed" = "") from by decide)
    | replied r t =>
      exact absurd (show (true : Bool) = false from hfail) (by decide)
  | remote =>
    by_cases hs : st.sockOpen = true
    · rw [pingOnce_remote_eq _ _ tmo ps ttl rfl hs] at hfail ⊢
      cases sOk with
      | false => exact Or.inl (by simp)
      | true =>
        by_cases hdup : (emplaceWaiter (bumpSeq st).waiters ⟨st.pid % 65536, st.nextSeq⟩
            (bumpSeq st).nextSlot).2 = false
        · exact Or.inl (by simp [hdup])
        · cases rep with
          | none => exact Or.inl (by simp [hdup])
          | some r =>
            right
            refine ⟨r, rfl, ?_, ?_⟩
            · simpa [hdup] using hfail
            · simp [hdup]
    · have hs2 : st.sockOpen = false := by
        cases h : st.sockOpen
        · rfl
        · exact absurd h hs
      left
      obtain ⟨run, so, sttl, pid0, seq0, slot0, ws0, sl0⟩ := st
      have hso : so = false := hs2
      subst hso
      exact (show ¬("Engine socket not available" = "") from by decide)

/-- Witness for the amended C2: a probe woken by the shutdown drain. -/
theorem failed_probe_is_value_witness :
    (pingOnceEngine stIdle envRemoteDrained 1000 0 (-1)).outcome.success = false ∧
    (¬(pingOnceEngine stIdle envRemoteDrained 1000 0 (-1)).outcome.error_msg = "" ∨
      (∃ r, envRemoteDrained.reply = some r ∧ r.success = false ∧
        (pingOnceEngine stIdle envRemoteDrained 1000 0 (-1)).outcome
          = { r with rtt_ms := envRemoteDrained.rtt })) :=
  ⟨by decide, failed_probe_is_value stIdle envRemoteDrained 1000 0 (-1) (by decide)⟩

/-- Claim C3 counterexample: with key (7, 1) already registered and the next
allocated key equal to (7, 1), registration does NOT fail the probe with a
DuplicateKey outcome: the probe proceeds to send (the claim forbids
proceeding), the new waiter was silently destroyed inside the failed
`emplace`, and after the successful send `fut.get()` throws
`std::future_error` (broken promise) out of `ping_once_engine`; the original
entry survives, its promise (slot 0) still unset. -/
theorem duplicate_key_probe_proceeds_cex :
    lookupWaiter stPending.waiters ⟨stPending.pid % 65536, stPending.nextSeq⟩ = some 0 ∧
    (pingOnceEngine stPending envRemoteTimeout 1000 0 (-1)).sentEngine = true ∧
    (pingOnceEngine stPending envRemoteTimeout 1000 0 (-1)).threw = true ∧
    (pingOnceEngine stPending envRemoteTimeout 1000 0 (-1)).state.waiters
      = stPending.waiters ∧
    (pingOnceEngine stPending envRemoteTimeout 1000 0 (-1)).state.slots
      = stPending.slots := by
  decide

/-- Claim C3 (amended): registering an already-present key never overwrites
the existing entry (the half of the claim that holds), but it does NOT fail
with DuplicateKey: the bool returned by `emplace` is discarded and the new
waiter's promise is silently destroyed inside the failed `emplace`
(libstdc++ and MSVC construct the node first), leaving the slot store
unchanged; the probe still proceeds to send, and after a successful send its
immediately-ready broken future makes `fut.get()` throw `std::future_error`
out of `ping_once_engine`, so the original probe's entry stays in the table,
still resolvable by the listener. -/
theorem duplicate_key_silently_ignored (st : EngineState) (env : ProbeEnv) (tmo : Int)
    (ps : Nat) (ttl : Int) (s : Nat)
    (hdest : env.dest = DestKind.remote) (hsock : st.sockOpen = true)
    (hdup : lookupWaiter st.waiters ⟨st.pid % 65536, st.nextSeq⟩ = some s)
    (hsend : env.sendOk = true) :
    (pingOnceEngine st env tmo ps ttl).sentEngine = true ∧
    (pingOnceEngine st env tmo ps ttl).threw = true ∧
    (pingOnceEngine st env tmo ps ttl).outcome.error_msg
      = "std::future_error: Broken promise" ∧
    (pingOnceEngine st env tmo ps ttl).state.slots = st.slots ∧
    (pingOnceEngine st env tmo ps ttl).state.waiters = st.waiters ∧
    lookupWaiter (pingOnceEngine st env tmo ps ttl).state.waiters
      ⟨st.pid % 65536, st.nextSeq⟩ = some s := by
  rw [pingOnce_remote_eq st env tmo ps ttl hdest hsock]
  have hemp : emplaceWaiter (bumpSeq st).waiters ⟨st.pid % 65536, st.nextSeq⟩
      (bumpSeq st).nextSlot = (st.waiters, false) := by
    simp [emplaceWaiter, bumpSeq, hdup]
  simp only [hsend, hemp]
  refine ⟨by simp, by simp, by simp, ?_, ?_, ?_⟩
  · simp [apply_ite EngineState.slots, bumpSeq]
  · simp [apply_ite EngineState.waiters, bumpSeq]
  · simp [apply_ite EngineState.waiters, bumpSeq, hdup]

/-- Witness for the amended C3 at the colliding-key state. -/
theorem duplicate_key_silently_ignored_witness :
    lookupWaiter stPending.waiters ⟨stPending.pid % 65536, stPending.nextSeq⟩ = some 0 ∧
    ((pingOnceEngine stPending envRemoteTimeout 1000 0 (-1)).sentEngine = true ∧
      (pingOnceEngine stPending envRemoteTimeout 1000 0 (-1)).threw = true ∧
      (pingOnceEngine stPending envRemoteTimeout 1000 0 (-1)).outcome.error_msg
        = "std::future_error: Broken promise" ∧
      (pingOnceEngine stPending envRemoteTimeout 1000 0 (-1)).state.slots
        = stPending.slots ∧
      (pingOnceEngine stPending envRemoteTimeout 1000 0 (-1)).state.waiters
        = stPending.waiters ∧
      lookupWaiter (pingOnceEngine stPending envRemoteTimeout 1000 0 (-1)).state.waiters
        ⟨stPending.pid % 65536, stPending.nextSeq⟩ = some 0) :=
  ⟨by decide,
    duplicate_key_silently_ignored stPending envRemoteTimeout 1000 0 (-1) 0
      (by decide) (by decide) (by decide) (by decide)⟩

/-- Claim C5 (amended): the checksum round trip holds for every buffer of at
most 131074 bytes (at most 65537 words, so the 32-bit accumulator of
`checksum16` cannot wrap): for a buffer with its 2-byte checksum field at an
even offset zeroed, writing `checksum16` of the buffer into that field makes
the one's-complement folded 16-bit word sum of the whole buffer 0xFFFF. -/
theorem checksum16_roundtrip (pre post : List Nat)
    (hpre : pre.length % 2 = 0)
    (hb : ∀ b ∈ pre ++ 0 :: 0 :: post, b < 256)
    (hlen : pre.length + 2 + post.length ≤ 131074) :
    onesComplementSum (pre ++ toBytes16le (checksum16 (pre ++ 0 :: 0 :: post)) ++ post)
      = 65535 :=
  checksum_roundtrip_core pre post hpre hb hlen

/-- Witness for the amended C5 on a small 8-byte buffer. -/
theorem checksum16_roundtrip_witness :
    (([8, 0] : List Nat).length % 2 = 0) ∧
    (∀ b ∈ ([8, 0] : List Nat) ++ 0 :: 0 :: [0, 1, 0, 2], b < 256) ∧
    onesComplementSum ([8, 0] ++ toBytes16le (checksum16 ([8, 0] ++ 0 :: 0 :: [0, 1, 0, 2]))
      ++ [0, 1, 0, 2]) = 65535 :=
  ⟨by decide, by decide,
    checksum16_roundtrip [8, 0] [0, 1, 0, 2] (by decide) (by decide) (by decide)⟩

/-- Claim C5 counterexample: the round trip FAILS on a 131078-byte buffer
(65539 words).  The true word sum of the zeroed buffer is 0x10000FFFE, the
32-bit accumulator wraps to 0xFFFE, `checksum16` returns 1 (the ideal
checksum is 0xFFFE), and the one's-complement folded sum of the patched
buffer is 1, not 0xFFFF. -/
theorem checksum16_roundtrip_large_cex :
    onesComplementSum ([255, 255] ++
      toBytes16le (checksum16 ([255, 255] ++ 0 :: 0 :: List.replicate 131074 255)) ++
      List.replicate 131074 255) = 1 ∧ (1 : Nat) ≠ 65535 := by
  have h131 : (131074 : Nat) = 2 * 65537 := by norm_num
  have hrep : words16 (List.replicate 131074 255) = List.replicate 65537 65535 := by
    rw [h131, words16_replicate255]
  have hw0 : words16 ([255, 255] ++ 0 :: 0 :: List.replicate 131074 255)
      = 65535 :: 0 :: List.replicate 65537 65535 := by
    rw [words16_append_even [255, 255] (0 :: 0 :: List.replicate 131074 255) (by decide)]
    rw [words16_cons2, words16_cons2, hrep]
    rfl
  have hsum0 : ((65535 : Nat) :: 0 :: List.replicate 65537 65535).sum = 4295032830 := by
    rw [List.sum_cons, List.sum_cons, sum_replicate_nat]
  have hck : checksum16 ([255, 255] ++ 0 :: 0 :: List.replicate 131074 255) = 1 := by
    rw [checksum16_eq, sum32_eq_sum_mod, hw0, hsum0]
    rw [show (4295032830 : Nat) % 4294967296 = 65534 from by norm_num]
    rw [foldCarry_of_lt (by norm_num)]
  constructor
  · rw [onesComplementSum_eq, hck]
    have hw1 : words16 ([255, 255] ++ toBytes16le 1 ++ List.replicate 131074 255)
        = 65535 :: 1 :: List.replicate 65537 65535 := by
      rw [List.append_assoc,
          words16_append_even [255, 255] (toBytes16le 1 ++ List.replicate 131074 255)
            (by decide),
          words16_toBytes16le 1 (List.replicate 131074 255) (by norm_num), hrep]
      rfl
    rw [hw1]
    have hs1 : ((65535 : Nat) :: 1 :: List.replicate 65537 65535).sum = 4295032831 := by
      rw [List.sum_cons, List.sum_cons, sum_replicate_nat]
    rw [hs1]
    rw [foldCarry_step (by norm_num)]
    rw [show (4295032831 : Nat) % 65536 + 4295032831 / 65536 = 131071 from by norm_num]
    rw [foldCarry_step (by norm_num)]
    rw [show (131071 : Nat) % 65536 + 131071 / 65536 = 65536 from by norm_num]
    rw [foldCarry_step (by norm_num)]
    rw [show (65536 : Nat) % 65536 + 65536 / 65536 = 1 from by norm_num]
    rw [foldCarry_of_lt (by norm_num)]
  · norm_num

/-- Claim C7 counterexample: for payload_size = 0 the bytes following the
8-byte ICMP header are the 8 engine-inserted timestamp bytes, not the
claimed exactly-payload_size (0) caller-supplied bytes. -/
theorem encode_payload_not_verbatim_cex :
    ((icmpEchoRequestBytes 1 2 0 0).drop 8).length = 8 ∧
    (icmpEchoRequestBytes 1 2 0 0).drop 8 = toBytes64le 0 ∧
    ¬((icmpEchoRequestBytes 1 2 0 0).drop 8).length = 0 := by
  decide

/-- Claim C7 (amended): the encoder emits type 8, code 0, the checksum
(computed last over the whole buffer with the field zeroed), identifier and
sequence in network byte order — but after the 8-byte header come an 8-byte
engine-inserted timestamp and then `payload_size` zero bytes (the caller
supplies only a size, no bytes), so the bytes following the header number
`payload_size + 8`.  The emitted checksum field verifies: the buffer's full
one's-complement folded sum is 0xFFFF. -/
theorem encode_echo_request (id seq ticks ps : Nat)
    (hid : id < 65536) (hseq : seq < 65536) (hps : ps ≤ 131058) :
    (icmpEchoRequestBytes id seq ticks ps).length = 16 + ps ∧
    (icmpEchoRequestBytes id seq ticks ps).take 2 = [8, 0] ∧
    ((icmpEchoRequestBytes id seq ticks ps).drop 2).take 2
      = toBytes16le (checksum16 (icmpEchoZeroed id seq ticks ps)) ∧
    ((icmpEchoRequestBytes id seq ticks ps).drop 4).take 2 = [id / 256, id % 256] ∧
    ((icmpEchoRequestBytes id seq ticks ps).drop 6).take 2 = [seq / 256, seq % 256] ∧
    (icmpEchoRequestBytes id seq ticks ps).drop 8
      = toBytes64le ticks ++ List.replicate ps 0 ∧
    onesComplementSum (icmpEchoRequestBytes id seq ticks ps) = 65535 := by
  have hiddiv : id / 256 % 256 = id / 256 := Nat.mod_eq_of_lt (by omega)
  have hseqdiv : seq / 256 % 256 = seq / 256 := Nat.mod_eq_of_lt (by omega)
  refine ⟨?_, ?_, ?_, ?_, ?_, ?_, ?_⟩
  · simp [icmpEchoRequestBytes, toBytes16le, toBytes16be, toBytes64le]
    omega
  · simp [icmpEchoRequestBytes, toBytes16le]
  · simp [icmpEchoRequestBytes, toBytes16le]
  · simp [icmpEchoRequestBytes, toBytes16le, toBytes16be, hiddiv]
  · simp [icmpEchoRequestBytes, toBytes16le, toBytes16be, hseqdiv]
  · simp [icmpEchoRequestBytes, toBytes16le, toBytes16be]
  · have hb := icmpEchoZeroed_bytes_lt id seq ticks ps
    have hzero : icmpEchoZeroed id seq ticks ps
        = [8, 0] ++ 0 :: 0 :: (toBytes16be id ++ toBytes16be seq ++ toBytes64le ticks ++
            List.replicate ps 0) := rfl
    rw [hzero] at hb
    have hlen : ([8, 0] : List Nat).length + 2 +
        (toBytes16be id ++ toBytes16be seq ++ toBytes64le ticks ++
          List.replicate ps 0).length ≤ 131074 := by
      simp [toBytes16be, toBytes64le]
      omega
    have hcore := checksum_roundtrip_core [8, 0]
      (toBytes16be id ++ toBytes16be seq ++ toBytes64le ticks ++ List.replicate ps 0)
      (by decide) hb hlen
    have hbuf : [8, 0] ++ toBytes16le (checksum16 ([8, 0] ++ 0 :: 0 ::
          (toBytes16be id ++ toBytes16be seq ++ toBytes64le ticks ++
            List.replicate ps 0))) ++
        (toBytes16be id ++ toBytes16be seq ++ toBytes64le ticks ++
          List.replicate ps 0)
        = icmpEchoRequestBytes id seq ticks ps := by
      simp [icmpEchoRequestBytes, icmpEchoZeroed, List.append_assoc]
    rw [hbuf] at hcore
    exact hcore

/-- Witness for the amended C7 at id 1, seq 2, ticks 0, payload_size 0. -/
theorem encode_echo_request_witness :
    (1 : Nat) < 65536 ∧ (2 : Nat) < 65536 ∧ (0 : Nat) ≤ 131058 ∧
    ((icmpEchoRequestBytes 1 2 0 0).length = 16 + 0 ∧
      (icmpEchoRequestBytes 1 2 0 0).take 2 = [8, 0] ∧
      ((icmpEchoRequestBytes 1 2 0 0).drop 2).take 2
        = toBytes16le (checksum16 (icmpEchoZeroed 1 2 0 0)) ∧
      ((icmpEchoRequestBytes 1 2 0 0).drop 4).take 2 = [1 / 256, 1 % 256] ∧
      ((icmpEchoRequestBytes 1 2 0 0).drop 6).take 2 = [2 / 256, 2 % 256] ∧
      (icmpEchoRequestBytes 1 2 0 0).drop 8 = toBytes64le 0 ++ List.replicate 0 0 ∧
      onesComplementSum (icmpEchoRequestBytes 1 2 0 0) = 65535) :=
  ⟨by decide, by decide, by decide,
    encode_echo_request 1 2 0 0 (by decide) (by decide) (by decide)⟩

end Claims


end CPing
